import Mathlib

/-!
Verification of the gh-download release-asset downloader.

The Go sources are embedded shallowly:
* `internal/github/github.go` — `Release`, `Asset`, `FilterAssets`,
  `ListAssets`, `ListReleases` rendering;
* `internal/download/download.go` — `DownloadFromRelease`, `downloadArchive`;
* Go's standard-library `path.Match` (the glob matcher `FilterAssets`
  delegates to) is embedded in full over rune lists (`List Char`); Go
  decodes runes from the name at `[`/`?` operators and compares bytes for
  literals, which agree with per-`Char` operation on all valid UTF-8 input.

Effects (HTTP fetches, file writes, printing) are modelled by explicit
oracle records and by returning the printed lines / issued calls as data.
-/

namespace GhDownload

/-! ## Data model (internal/github/github.go, main.go Config) -/

/-- One release asset, as decoded from the forge's JSON (github.go). -/
structure Asset where
  ID : Int
  Name : String
  ContentType : String
  Size : Int
  BrowserDownloadURL : String
  URL : String
  deriving DecidableEq, Repr

/-- One release record, as decoded from the forge's JSON (github.go). -/
structure Release where
  ID : Int
  TagName : String
  Name : String
  Body : String
  Draft : Bool
  Prerelease : Bool
  CreatedAt : String
  PublishedAt : String
  Assets : List Asset
  deriving DecidableEq, Repr

/-- The parsed command-line configuration (main.go / internal/config). -/
structure Config where
  Repository : String
  Tag : String
  Pattern : String
  Directory : String
  Archive : String
  List : Bool
  Releases : Bool
  Help : Bool
  deriving DecidableEq, Repr

/-! ## Go `path.Match` (the glob matcher used by FilterAssets)

Faithful embedding of Go's `path/match.go` over rune lists.  Errors carry
the message of Go's `path.ErrBadPattern`.  The `..._cons`/`..._nil`
unfolding lemmas below restate each recursive equation without the
dependent match introduced for the termination proof, so that concrete
and symbolic computations can be carried out by rewriting. -/

def badPatternErr : String := "syntax error in pattern"

def getEsc : List Char → Except String (Char × List Char)
  | [] => .error badPatternErr
  | c :: rest =>
    if c = '-' ∨ c = ']' then .error badPatternErr
    else if c = '\\' then
      match rest with
      | [] => .error badPatternErr
      | r :: rest2 => if rest2 = [] then .error badPatternErr else .ok (r, rest2)
    else
      if rest = [] then .error badPatternErr else .ok (c, rest)

theorem getEsc_length_lt {chunk : List Char} {r : Char} {rest : List Char}
    (h : getEsc chunk = .ok (r, rest)) : rest.length < chunk.length := by
  match chunk with
  | [] => simp [getEsc] at h
  | c :: cs =>
    simp only [getEsc] at h
    split at h
    · exact absurd h (by simp)
    · split at h
      · match cs with
        | [] => simp at h
        | d :: cs2 =>
          simp only at h
          split at h
          · exact absurd h (by simp)
          · simp only [Except.ok.injEq, Prod.mk.injEq] at h
            rw [← h.2]
            simp
            omega
      · split at h
        · exact absurd h (by simp)
        · simp only [Except.ok.injEq, Prod.mk.injEq] at h
          rw [← h.2]
          simp

/-- The range-parsing loop inside Go `path.matchChunk`'s `[` case. -/
def parseRanges (r : Char) (matched : Bool) (nrange : Nat) :
    List Char → Except String (Bool × List Char)
  | [] => .error badPatternErr
  | c :: rest =>
    if c = ']' ∧ nrange > 0 then .ok (matched, rest)
    else
      match h1 : getEsc (c :: rest) with
      | .error e => .error e
      | .ok (lo, chunk1) =>
        if chunk1.headD ' ' = '-' then
          match h3 : getEsc chunk1.tail with
          | .error e => .error e
          | .ok (hi, chunk2) =>
            parseRanges r (matched || decide (lo ≤ r ∧ r ≤ hi)) (nrange + 1) chunk2
        else
          parseRanges r (matched || decide (lo ≤ r ∧ r ≤ lo)) (nrange + 1) chunk1
  termination_by chunk => chunk.length
  decreasing_by
  · have hlt1 := getEsc_length_lt h1
    have hlt3 := getEsc_length_lt h3
    have : chunk1.tail.length ≤ chunk1.length := by simp
    simp only [List.length_cons] at hlt1 ⊢
    omega
  · have hlt1 := getEsc_length_lt h1
    simp only [List.length_cons] at hlt1 ⊢
    omega

theorem parseRanges_length_lt_aux (r : Char) :
    ∀ (k : Nat) (chunk : List Char), chunk.length ≤ k →
      ∀ (m : Bool) (n : Nat) (b : Bool) (out : List Char),
        parseRanges r m n chunk = .ok (b, out) → out.length < chunk.length := by
  intro k
  induction k with
  | zero =>
    intro chunk hk m n b out h
    have hnil : chunk = [] := List.eq_nil_of_length_eq_zero (Nat.le_zero.mp hk)
    subst hnil
    rw [parseRanges] at h
    exact absurd h (by simp)
  | succ k ih =>
    intro chunk hk m n b out h
    match chunk with
    | [] => rw [parseRanges] at h; exact absurd h (by simp)
    | c :: rest =>
      rw [parseRanges] at h
      split at h
      · simp only [Except.ok.injEq, Prod.mk.injEq] at h
        rw [← h.2]
        simp
      · split at h
        · simp at h
        · rename_i lo chunk1 heq
          have hlt1 := getEsc_length_lt heq
          simp only [List.length_cons] at hlt1 hk
          split at h
          · split at h
            · simp at h
            · rename_i hi chunk2 heq2
              have hlt3 := getEsc_length_lt heq2
              have htl : chunk1.tail.length ≤ chunk1.length := by simp
              have hout := ih chunk2 (by omega) _ _ _ _ h
              simp only [List.length_cons]
              omega
          · have hout := ih chunk1 (by omega) _ _ _ _ h
            simp only [List.length_cons]
            omega

theorem parseRanges_length_lt {r : Char} {m : Bool} {n : Nat}
    {chunk : List Char} {b : Bool} {out : List Char}
    (h : parseRanges r m n chunk = .ok (b, out)) : out.length < chunk.length :=
  parseRanges_length_lt_aux r chunk.length chunk le_rfl m n b out h

/-- Go `path.matchChunk`. -/
def matchChunk : List Char → List Char → Bool → Except String (List Char × Bool)
  | [], s, failed => if failed then .ok ([], false) else .ok (s, true)
  | c :: chunkRest, s, failed0 =>
    let failed := failed0 || s.isEmpty
    if c = '[' then
      let r := if failed then Char.ofNat 0 else s.headD (Char.ofNat 0)
      let s1 := if failed then s else s.tail
      let negated : Bool := chunkRest.headD ' ' = '^'
      let chunk2 := if negated then chunkRest.tail else chunkRest
      match h1 : parseRanges r false 0 chunk2 with
      | .error e => .error e
      | .ok (m, chunk3) =>
        matchChunk chunk3 s1 (failed || (m == negated))
    else if c = '?' then
      let failed1 := failed || decide (s.headD (Char.ofNat 0) = '/')
      let s1 := if failed then s else s.tail
      matchChunk chunkRest s1 failed1
    else if c = '\\' then
      match chunkRest with
      | [] => .error badPatternErr
      | d :: rest2 =>
        let failed1 := failed || decide (¬ d = s.headD (Char.ofNat 0))
        let s1 := if failed then s else s.tail
        matchChunk rest2 s1 failed1
    else
      let failed1 := failed || decide (¬ c = s.headD (Char.ofNat 0))
      let s1 := if failed then s else s.tail
      matchChunk chunkRest s1 failed1
  termination_by chunk => chunk.length
  decreasing_by
  · have hlt1 := parseRanges_length_lt h1
    have h2 : chunk2.length ≤ chunkRest.length := by
      simp only [chunk2]
      split
      · simp
      · exact le_rfl
    simp only [List.length_cons]
    omega
  · simp only [List.length_cons]
    omega
  · simp only [List.length_cons]
    omega
  · simp only [List.length_cons]
    omega

theorem matchChunk_length_le_aux :
    ∀ (k : Nat) (chunk : List Char), chunk.length ≤ k →
      ∀ (s : List Char) (failed : Bool) (t : List Char) (b : Bool),
        matchChunk chunk s failed = .ok (t, b) → t.length ≤ s.length := by
  intro k
  induction k with
  | zero =>
    intro chunk hk s failed t b h
    have hnil : chunk = [] := List.eq_nil_of_length_eq_zero (Nat.le_zero.mp hk)
    subst hnil
    rw [matchChunk.eq_def] at h
    simp only at h
    split at h
    · simp only [Except.ok.injEq, Prod.mk.injEq] at h
      rw [← h.1]
      simp
    · simp only [Except.ok.injEq, Prod.mk.injEq] at h
      rw [← h.1]
  | succ k ih =>
    intro chunk hk s failed t b h
    match chunk with
    | [] =>
      rw [matchChunk.eq_def] at h
      simp only at h
      split at h
      · simp only [Except.ok.injEq, Prod.mk.injEq] at h
        rw [← h.1]
        simp
      · simp only [Except.ok.injEq, Prod.mk.injEq] at h
        rw [← h.1]
    | c :: chunkRest =>
      have htail : ∀ f : Bool, (if f then s else s.tail).length ≤ s.length := by
        intro f
        split
        · exact le_rfl
        · rw [List.length_tail]
          omega
      rw [matchChunk.eq_def] at h
      simp only at h
      simp only [List.length_cons] at hk
      split at h
      · -- '[' case
        split at h
        · simp at h
        · rename_i m chunk3 heq
          have hlt := parseRanges_length_lt heq
          have hle2 : (if (chunkRest.headD ' ' = '^' : Bool) = true then chunkRest.tail else chunkRest).length ≤ chunkRest.length := by
            split
            · simp
            · exact le_rfl
          exact Nat.le_trans (ih chunk3 (by omega) _ _ _ _ h) (htail _)
      · split at h
        · -- '?' case
          exact Nat.le_trans (ih chunkRest (by omega) _ _ _ _ h) (htail _)
        · split at h
          · -- '\' case
            match chunkRest, hk with
            | [], _ => simp at h
            | d :: rest2, hk =>
              simp only at h
              simp only [List.length_cons] at hk
              exact Nat.le_trans (ih rest2 (by omega) _ _ _ _ h) (htail _)
          · -- literal case
            exact Nat.le_trans (ih chunkRest (by omega) _ _ _ _ h) (htail _)

theorem matchChunk_length_le {chunk s : List Char} {failed : Bool}
    {t : List Char} {b : Bool}
    (h : matchChunk chunk s failed = .ok (t, b)) : t.length ≤ s.length :=
  matchChunk_length_le_aux chunk.length chunk le_rfl s failed t b h

/-- Leading-star stripping at the head of Go `path.scanChunk`. -/
def stripStars : List Char → Bool × List Char
  | [] => (false, [])
  | c :: rest =>
    if c = '*' then (true, (stripStars rest).2)
    else (false, c :: rest)

theorem stripStars_length_le (p : List Char) : (stripStars p).2.length ≤ p.length := by
  induction p with
  | nil => simp [stripStars]
  | cons c rest ih =>
    rw [stripStars]
    split
    · simp only [List.length_cons]
      omega
    · simp

/-- The scan loop of Go `path.scanChunk`: copy the pattern until a star
outside a character class, skipping backslash-escaped characters (a
trailing lone backslash is copied as-is). -/
def scanTo (inrange : Bool) : List Char → List Char × List Char
  | [] => ([], [])
  | c :: rest =>
    if c = '\\' then
      if rest = [] then ([c], [])
      else
        let p := scanTo inrange rest.tail
        (c :: rest.headD ' ' :: p.1, p.2)
    else if c = '[' then
      let p := scanTo true rest
      (c :: p.1, p.2)
    else if c = ']' then
      let p := scanTo false rest
      (c :: p.1, p.2)
    else if c = '*' ∧ ¬ inrange then
      ([], c :: rest)
    else
      let p := scanTo inrange rest
      (c :: p.1, p.2)
  termination_by l => l.length
  decreasing_by
  · rw [List.length_tail]
    simp only [List.length_cons]
    omega
  · simp
  · simp
  · simp

theorem scanTo_append : ∀ (inrange : Bool) (l : List Char),
    (scanTo inrange l).1 ++ (scanTo inrange l).2 = l := by
  intro inrange l
  induction inrange, l using scanTo.induct with
  | case1 ir => simp [scanTo]
  | case2 ir => simp [scanTo]
  | case3 ir rest2 hne ih =>
    rw [scanTo]
    simp only [if_pos rfl, if_neg hne]
    match rest2, hne, ih with
    | d :: r2, _, ih => simpa using ih
  | case4 ir rest2 _ ih =>
    rw [scanTo]
    simpa using ih
  | case5 ir rest2 _ _ ih =>
    rw [scanTo]
    simpa using ih
  | case6 ir r rest2 h1 h2 h3 h4 =>
    rw [scanTo]
    simp [h1, h2, h3, h4]
  | case7 ir r rest2 h1 h2 h3 h4 ih =>
    rw [scanTo]
    simp only [if_neg h1, if_neg h2, if_neg h3, if_neg h4]
    simpa using ih

theorem scanTo_chunk_ne_nil (c : Char) (rest : List Char) (hc : ¬ c = '*') :
    (scanTo false (c :: rest)).1 ≠ [] := by
  rw [scanTo]
  split
  · split <;> simp
  · split
    · simp
    · split
      · simp
      · split
        · rename_i hcon
          exact absurd hcon.1 hc
        · simp

/-- Go `path.scanChunk`: strip leading stars, then cut the pattern at the
next star that lies outside a character class. -/
def scanChunk (pattern : List Char) : Bool × List Char × List Char :=
  let sp := stripStars pattern
  let p := scanTo false sp.2
  (sp.1, p.1, p.2)

theorem scanTo_rest_le (inrange : Bool) (l : List Char) :
    (scanTo inrange l).2.length ≤ l.length := by
  have h := congrArg List.length (scanTo_append inrange l)
  simp only [List.length_append] at h
  omega

theorem scanChunk_rest_lt (pattern : List Char) (h : pattern ≠ []) :
    (scanChunk pattern).2.2.length < pattern.length := by
  match pattern with
  | [] => exact absurd rfl h
  | c :: rest =>
    simp only [scanChunk]
    by_cases hc : c = '*'
    · subst hc
      have h1 : (stripStars ('*' :: rest)).2.length ≤ rest.length := by
        rw [stripStars]
        simp only [if_pos rfl]
        exact stripStars_length_le rest
      have h3 := scanTo_rest_le false (stripStars ('*' :: rest)).2
      simp only [List.length_cons]
      omega
    · have hs : stripStars (c :: rest) = (false, c :: rest) := by
        rw [stripStars]
        simp [hc]
      rw [hs]
      have h2 := congrArg List.length (scanTo_append false (c :: rest))
      simp only [List.length_append, List.length_cons] at h2
      have h4 := scanTo_chunk_ne_nil c rest hc
      have h6 : 1 ≤ (scanTo false (c :: rest)).1.length := by
        match hm : (scanTo false (c :: rest)).1 with
        | [] => exact absurd hm h4
        | _ :: _ => simp
      simp only [List.length_cons]
      omega

/-- The trailing pattern-validity loop of Go `path.Match`: before
returning a no-match, check the rest of the pattern is well-formed by
running every remaining chunk against the empty name. -/
def checkRemainder : List Char → Except String Bool
  | [] => .ok false
  | c :: rest =>
    let sc := scanChunk (c :: rest)
    match matchChunk sc.2.1 [] false with
    | .error e => .error e
    | .ok _ => checkRemainder sc.2.2
  termination_by p => p.length
  decreasing_by
  · exact scanChunk_rest_lt _ (by simp)

mutual
/-- Go `path.Match`'s outer `Pattern` loop (`pattern` is what remains of
the glob, `name` what remains of the file name). -/
def goMatch (pattern name : List Char) : Except String Bool :=
  match pattern with
  | [] => .ok name.isEmpty
  | c :: rest0 =>
    let sc := scanChunk (c :: rest0)
    if sc.1 ∧ sc.2.1 = [] then .ok (!name.contains '/')
    else
      match hmc : matchChunk sc.2.1 name false with
      | .error e => .error e
      | .ok (t, ok) =>
        if ok ∧ (t = [] ∨ sc.2.2 ≠ []) then goMatch sc.2.2 t
        else if sc.1 then tryStar sc.2.1 sc.2.2 name
        else checkRemainder sc.2.2
  termination_by (pattern.length, name.length)
  decreasing_by
  · apply Prod.Lex.left
    exact scanChunk_rest_lt _ (by simp)
  · apply Prod.Lex.left
    exact scanChunk_rest_lt _ (by simp)

/-- The star back-off loop of Go `path.Match`: with a preceding `*`, try
the chunk at each later position of the name (never skipping past `/`). -/
def tryStar (chunk pattern : List Char) : List Char → Except String Bool
  | [] => checkRemainder pattern
  | c :: srest =>
    if c = '/' then checkRemainder pattern
    else
      match hmc : matchChunk chunk srest false with
      | .error e => .error e
      | .ok (t, ok) =>
        if ok then
          if pattern = [] ∧ t ≠ [] then tryStar chunk pattern srest
          else goMatch pattern t
        else tryStar chunk pattern srest
  termination_by sub => (pattern.length, sub.length)
  decreasing_by
  · apply Prod.Lex.right
    simp
  · apply Prod.Lex.right
    have hle := matchChunk_length_le hmc
    simp only [List.length_cons]
    omega
  · apply Prod.Lex.right
    simp
end

/-- Go `path.Match` on Lean strings. -/
def pathMatch (pattern name : String) : Except String Bool :=
  goMatch pattern.data name.data

deriving instance DecidableEq for Except

theorem parseRanges_cons (r : Char) (m : Bool) (n : Nat) (c : Char) (rest : List Char) :
    parseRanges r m n (c :: rest) =
      if c = ']' ∧ n > 0 then .ok (m, rest)
      else
        match getEsc (c :: rest) with
        | .error e => .error e
        | .ok (lo, chunk1) =>
          if chunk1.headD ' ' = '-' then
            match getEsc chunk1.tail with
            | .error e => .error e
            | .ok (hi, chunk2) => parseRanges r (m || decide (lo ≤ r ∧ r ≤ hi)) (n + 1) chunk2
          else parseRanges r (m || decide (lo ≤ r ∧ r ≤ lo)) (n + 1) chunk1 := by
  rw [parseRanges]
  split
  · rfl
  · split
    · rename_i e heq
      rw [heq]
    · rename_i lo chunk1 heq
      rw [heq]
      dsimp only
      split
      · split
        · rename_i e2 heq2
          rw [heq2]
        · rename_i hi chunk2 heq2
          rw [heq2]
      · rfl

theorem parseRanges_nil (r : Char) (m : Bool) (n : Nat) :
    parseRanges r m n [] = .error badPatternErr := by
  rw [parseRanges]

theorem matchChunk_nil (s : List Char) (failed : Bool) :
    matchChunk [] s failed = if failed then .ok ([], false) else .ok (s, true) := by
  rw [matchChunk.eq_def]

theorem matchChunk_cons (c : Char) (chunkRest s : List Char) (failed0 : Bool) :
    matchChunk (c :: chunkRest) s failed0 =
      (let failed := failed0 || s.isEmpty
       if c = '[' then
         let r := if failed then Char.ofNat 0 else s.headD (Char.ofNat 0)
         let s1 := if failed then s else s.tail
         let negated : Bool := chunkRest.headD ' ' = '^'
         let chunk2 := if negated then chunkRest.tail else chunkRest
         match parseRanges r false 0 chunk2 with
         | .error e => .error e
         | .ok (m, chunk3) => matchChunk chunk3 s1 (failed || (m == negated))
       else if c = '?' then
         let failed1 := failed || decide (s.headD (Char.ofNat 0) = '/')
         let s1 := if failed then s else s.tail
         matchChunk chunkRest s1 failed1
       else if c = '\\' then
         match chunkRest with
         | [] => .error badPatternErr
         | d :: rest2 =>
           let failed1 := failed || decide (¬ d = s.headD (Char.ofNat 0))
           let s1 := if failed then s else s.tail
           matchChunk rest2 s1 failed1
       else
         let failed1 := failed || decide (¬ c = s.headD (Char.ofNat 0))
         let s1 := if failed then s else s.tail
         matchChunk chunkRest s1 failed1) := by
  rw [matchChunk.eq_def]
  dsimp only
  split
  · split
    · rename_i e heq
      rw [heq]
    · rename_i m chunk3 heq
      rw [heq]
  · rfl

theorem goMatch_nil (name : List Char) : goMatch [] name = .ok name.isEmpty := by
  rw [goMatch]

theorem goMatch_cons (c : Char) (rest0 name : List Char) :
    goMatch (c :: rest0) name =
      (let sc := scanChunk (c :: rest0)
       if sc.1 ∧ sc.2.1 = [] then .ok (!name.contains '/')
       else
         match matchChunk sc.2.1 name false with
         | .error e => .error e
         | .ok (t, ok) =>
           if ok ∧ (t = [] ∨ sc.2.2 ≠ []) then goMatch sc.2.2 t
           else if sc.1 then tryStar sc.2.1 sc.2.2 name
           else checkRemainder sc.2.2) := by
  rw [goMatch]
  dsimp only
  split
  · rfl
  · split
    · rename_i e heq
      rw [heq]
    · rename_i t ok heq
      rw [heq]

theorem tryStar_nil (chunk pattern : List Char) :
    tryStar chunk pattern [] = checkRemainder pattern := by
  rw [tryStar]

theorem tryStar_cons (chunk pattern : List Char) (c : Char) (srest : List Char) :
    tryStar chunk pattern (c :: srest) =
      (if c = '/' then checkRemainder pattern
       else
         match matchChunk chunk srest false with
         | .error e => .error e
         | .ok (t, ok) =>
           if ok then
             if pattern = [] ∧ t ≠ [] then tryStar chunk pattern srest
             else goMatch pattern t
           else tryStar chunk pattern srest) := by
  rw [tryStar]
  split
  · rfl
  · split
    · rename_i e heq
      rw [heq]
    · rename_i t ok heq
      rw [heq]


/-! ## Asset filtering (github.go `FilterAssets`, lines 49-66)

`FilterAssets` fast-paths the patterns `*` and `""` and otherwise runs
Go `path.Match` on every asset name, aborting with a wrapped
`invalid pattern` error as soon as the matcher reports a bad pattern. -/

/-- The loop body of `FilterAssets` (github.go lines 54-63): keep the
assets whose name matches, abort on the first matcher error. -/
def filterLoop (pattern : String) : List Asset → Except String (List Asset)
  | [] => .ok []
  | asset :: rest =>
    match pathMatch pattern asset.Name with
    | .error e => .error ("invalid pattern '" ++ pattern ++ "': " ++ e)
    | .ok true =>
      match filterLoop pattern rest with
      | .error e => .error e
      | .ok matched => .ok (asset :: matched)
    | .ok false => filterLoop pattern rest

/-- github.go `FilterAssets` (lines 49-66). -/
def FilterAssets (assets : List Asset) (pattern : String) : Except String (List Asset) :=
  if pattern = "*" ∨ pattern = "" then .ok assets
  else filterLoop pattern assets

/-- The numbered per-asset listing lines of `ListAssets` (github.go
lines 80-84), starting from 0-based index `i`.  Blank separator lines
are not modelled; every `Printf` that ends in a newline is one list
element. -/
def listAssetLines : Nat → List Asset → List String
  | _, [] => []
  | i, a :: rest =>
    (toString (i + 1) ++ ". " ++ a.Name)
      :: ("   Size: " ++ toString a.Size ++ " bytes")
      :: ("   Content-Type: " ++ a.ContentType)
      :: listAssetLines (i + 1) rest

/-- github.go `ListAssets` (lines 68-93): the emitted lines and the
returned result. -/
def ListAssets (assets : List Asset) (pattern : String) :
    List String × Except String Unit :=
  match FilterAssets assets pattern with
  | .error e => ([], .error ("failed to filter assets: " ++ e))
  | .ok matching =>
    if matching.length = 0 then
      (["No assets found matching pattern '" ++ pattern ++ "'"], .ok ())
    else
      (("Assets matching pattern '" ++ pattern ++ "':")
          :: (listAssetLines 0 matching
            ++ ["Total: " ++ toString matching.length ++ " assets"]),
        .ok ())

/-! ## Release listing (github.go `ListReleases`, lines 95-141) -/

/-- The tag suffix of a release listing line (github.go lines 110-113):
shown only when the tag is nonempty and differs from the display name. -/
def releaseTagSuffix (r : Release) : String :=
  if r.TagName ≠ "" ∧ r.TagName ≠ r.Name then " (" ++ r.TagName ++ ")" else ""

/-- The status markers of a release (github.go lines 115-121): draft is
appended before prerelease. -/
def releaseStatusList (r : Release) : List String :=
  (if r.Draft then ["draft"] else []) ++ (if r.Prerelease then ["prerelease"] else [])

/-- The bracketed status text of a release listing line, or `none` when
no status flag is set (github.go lines 122-124). -/
def releaseStatusText (r : Release) : Option String :=
  if (releaseStatusList r).length > 0 then
    some ("[" ++ String.intercalate ", " (releaseStatusList r) ++ "]")
  else none

/-- The first rendered line of the release at 0-based index `i`
(github.go lines 109-125): number, display name, optional
parenthesised tag, optional bracketed status. -/
def releaseLine (i : Nat) (r : Release) : String :=
  toString (i + 1) ++ ". " ++ r.Name ++ releaseTagSuffix r ++
    (match releaseStatusText r with
     | some a => " " ++ a
     | none => "")

/-- github.go `formatDate` (lines 143-154): keep the first 10
characters (`YYYY-MM-DD`) of the timestamp. -/
def formatDate (dateStr : String) : String :=
  if dateStr = "" then ""
  else if dateStr.length ≥ 10 then dateStr.take 10
  else dateStr

/-- The block of listing lines for one release (github.go lines
109-132). -/
def listReleaseEntry (i : Nat) (r : Release) : List String :=
  releaseLine i r
    :: ((if r.PublishedAt ≠ "" then ["   Published: " ++ formatDate r.PublishedAt] else [])
      ++ ["   Assets: " ++ toString r.Assets.length])

/-- The per-release listing blocks, numbering from 0-based index `i`. -/
def listReleaseLines : Nat → List Release → List String
  | _, [] => []
  | i, r :: rest => listReleaseEntry i r ++ listReleaseLines (i + 1) rest

/-- github.go `ListReleases` (lines 95-141) given the outcome `fetch` of
the releases request: the emitted lines and the returned result. -/
def ListReleases (fetch : Except String (List Release)) (repo : String) :
    List String × Except String Unit :=
  match fetch with
  | .error e => ([], .error ("failed to get releases: " ++ e))
  | .ok releases =>
    if releases.length = 0 then
      (["No releases found for " ++ repo], .ok ())
    else
      (("Releases for " ++ repo ++ ":")
          :: (listReleaseLines 0 releases
            ++ ["Total: " ++ toString releases.length ++ " releases"]),
        .ok ())

/-- The endpoint chosen by github.go `GetRelease` (lines 32-38): by tag
when one is given, otherwise the latest release. -/
def getReleaseEndpoint (repo tag : String) : String :=
  if tag = "" then "repos/" ++ repo ++ "/releases/latest"
  else "repos/" ++ repo ++ "/releases/tags/" ++ tag

/-! ## Downloader (internal/download/download.go) -/

/-- Go `strings.ReplaceAll(repo, "/", "-")` as used by
`downloadArchive`: for a single-character needle this is a plain
character map. -/
def repoDashes (repo : String) : String :=
  String.mk (repo.data.map (fun c => if c = '/' then '-' else c))

/-- The pure prefix of download.go `downloadArchive` (lines 68-84):
format validation, the `HEAD` tag fallback, and the derived endpoint and
target file name, before any request is issued. -/
def downloadArchivePlan (repo tag archiveFormat : String) :
    Except String (String × String) :=
  if archiveFormat ≠ "zip" ∧ archiveFormat ≠ "tar.gz" then
    .error "archive format must be 'zip' or 'tar.gz'"
  else
    let tagRef := if tag = "" then "HEAD" else tag
    if archiveFormat = "zip" then
      .ok ("repos/" ++ repo ++ "/zipball/" ++ tagRef,
        repoDashes repo ++ "-" ++ tagRef ++ ".zip")
    else
      .ok ("repos/" ++ repo ++ "/tarball/" ++ tagRef,
        repoDashes repo ++ "-" ++ tagRef ++ ".tar.gz")

/-- One observable external call of `DownloadFromRelease`, in issue
order. -/
inductive Step where
  | createClient
  | listReleasesCall (repo : String)
  | getReleaseCall (repo tag : String)
  | listAssetsCall (pattern : String)
  | archiveRequest (endpoint filename : String)
  | assetDownloadLoop (names : List String)
  deriving DecidableEq, Repr

/-- Oracle outcomes for the effectful collaborators of
`DownloadFromRelease`: client construction, the two fetches, and the
streaming tails of the archive and asset downloads (whose internals no
claim concerns). -/
structure Env where
  client : Except String Unit
  releasesFetch : Except String (List Release)
  releaseFetch : Except String Release
  archiveStream : Except String Unit
  assetStream : Except String Unit
  deriving Repr

/-- download.go `DownloadFromRelease` (lines 15-65): the list of issued
external calls and the returned result, for a given configuration and
oracle outcomes. -/
def DownloadFromRelease (cfg : Config) (env : Env) :
    List Step × Except String Unit :=
  if cfg.Repository = "" then ([], .error "repository is required")
  else
    match env.client with
    | .error e => ([.createClient], .error ("failed to create GitHub client: " ++ e))
    | .ok _ =>
      if cfg.Releases then
        ([.createClient, .listReleasesCall cfg.Repository],
          (ListReleases env.releasesFetch cfg.Repository).2)
      else
        match env.releaseFetch with
        | .error e =>
          ([.createClient, .getReleaseCall cfg.Repository cfg.Tag],
            .error ("failed to get release: " ++ e))
        | .ok release =>
          if cfg.List then
            ([.createClient, .getReleaseCall cfg.Repository cfg.Tag,
                .listAssetsCall cfg.Pattern],
              (ListAssets release.Assets cfg.Pattern).2)
          else if cfg.Archive ≠ "" then
            match downloadArchivePlan cfg.Repository cfg.Tag cfg.Archive with
            | .error e =>
              ([.createClient, .getReleaseCall cfg.Repository cfg.Tag], .error e)
            | .ok (endpoint, filename) =>
              ([.createClient, .getReleaseCall cfg.Repository cfg.Tag,
                  .archiveRequest endpoint filename],
                env.archiveStream)
          else
            match FilterAssets release.Assets cfg.Pattern with
            | .error e =>
              ([.createClient, .getReleaseCall cfg.Repository cfg.Tag],
                .error ("failed to filter assets: " ++ e))
            | .ok matching =>
              if matching.length = 0 then
                ([.createClient, .getReleaseCall cfg.Repository cfg.Tag],
                  .error ("no assets found matching pattern '" ++ cfg.Pattern ++ "'"))
              else
                ([.createClient, .getReleaseCall cfg.Repository cfg.Tag,
                    .assetDownloadLoop (matching.map Asset.Name)],
                  env.assetStream)

/-- Substring containment on strings (used to state "the message
contains ..."). -/
def strContains (s sub : String) : Prop := List.IsInfix sub.data s.data

instance (s sub : String) : Decidable (strContains s sub) :=
  List.decidableInfix sub.data s.data

/-! ## Helper lemmas and concrete fixtures -/

theorem strContains_mid (a s b : String) : strContains (a ++ s ++ b) s := by
  refine ⟨a.data, b.data, ?_⟩
  simp [String.data_append]

/-- The simp set that evaluates the embedded `path.Match` on concrete
input. -/
theorem pathMatch_star_empty : pathMatch "*" "" = .ok true := by
  simp [pathMatch, goMatch_cons, scanChunk, scanTo, stripStars, matchChunk_nil]

theorem pathMatch_empty_empty : pathMatch "" "" = .ok true := by
  simp [pathMatch, goMatch_nil]

/-- The unterminated character class `[` is reported as a bad pattern
whatever the name is. -/
theorem pathMatch_lbracket (s : String) : pathMatch "[" s = .error badPatternErr := by
  have hgo : ∀ l : List Char, goMatch ['['] l = .error badPatternErr := by
    intro l
    rw [goMatch_cons]
    simp [scanChunk, scanTo, stripStars, matchChunk_cons, parseRanges_nil]
  exact hgo s.data

/-- The per-asset matching predicate of spec §4.1: patterns `*` and the
empty string match everything, any other pattern is evaluated as a
glob (a matcher error counts as no match; `FilterAssets` never returns
a result in that case). -/
def matchesPattern (pattern : String) (a : Asset) : Bool :=
  if pattern = "*" ∨ pattern = "" then true
  else
    match pathMatch pattern a.Name with
    | .ok b => b
    | .error _ => false

theorem filterLoop_ok {pattern : String} :
    ∀ {assets res : List Asset}, filterLoop pattern assets = .ok res →
      res = assets.filter (fun a =>
        match pathMatch pattern a.Name with
        | .ok b => b
        | .error _ => false) := by
  intro assets
  induction assets with
  | nil =>
    intro res h
    rw [filterLoop] at h
    simp only [Except.ok.injEq] at h
    simp [← h]
  | cons a rest ih =>
    intro res h
    rw [filterLoop] at h
    split at h
    · exact absurd h (by simp)
    · rename_i heq
      split at h
      · exact absurd h (by simp)
      · rename_i matched heq2
        simp only [Except.ok.injEq] at h
        rw [← h, List.filter_cons, heq]
        simp [← ih heq2]
    · rename_i heq
      rw [List.filter_cons, heq]
      simpa using ih h

theorem filterLoop_all_matched {pattern : String} :
    ∀ {assets : List Asset},
      (∀ a ∈ assets, pathMatch pattern a.Name = .ok true) →
      filterLoop pattern assets = .ok assets := by
  intro assets
  induction assets with
  | nil => intro _; rw [filterLoop]
  | cons a rest ih =>
    intro hall
    rw [filterLoop]
    rw [hall a (by simp)]
    rw [ih (fun b hb => hall b (by simp [hb]))]

/-- Concrete fixtures used by the witnesses (values are immaterial
beyond the names and sizes). -/
def assetA : Asset :=
  { ID := 1, Name := "a.zip", ContentType := "application/zip", Size := 1024,
    BrowserDownloadURL := "https://example/a.zip", URL := "https://api/assets/1" }

def assetB : Asset :=
  { ID := 2, Name := "b.tar.gz", ContentType := "application/gzip", Size := 2048,
    BrowserDownloadURL := "https://example/b.tar.gz", URL := "https://api/assets/2" }

def release0 : Release :=
  { ID := 10, TagName := "v1.0.0", Name := "Release v1.0.0", Body := "",
    Draft := false, Prerelease := false, CreatedAt := "",
    PublishedAt := "2023-12-01T10:30:00Z", Assets := [assetA, assetB] }

/-- An oracle record where every collaborator succeeds and the single
release resolves to `release0`. -/
def envOk : Env :=
  { client := .ok (), releasesFetch := .ok [release0],
    releaseFetch := .ok release0, archiveStream := .ok (),
    assetStream := .ok () }

theorem pathMatch_targz_a : pathMatch "*.tar.gz" "a.zip" = .ok false := by
  simp [pathMatch, goMatch_nil, goMatch_cons, tryStar_nil, tryStar_cons, matchChunk_nil,
        matchChunk_cons, parseRanges_nil, parseRanges_cons, checkRemainder, getEsc,
        scanChunk, scanTo, stripStars, badPatternErr]

theorem pathMatch_targz_b : pathMatch "*.tar.gz" "b.tar.gz" = .ok true := by
  simp [pathMatch, goMatch_nil, goMatch_cons, tryStar_nil, tryStar_cons, matchChunk_nil,
        matchChunk_cons, parseRanges_nil, parseRanges_cons, checkRemainder, getEsc,
        scanChunk, scanTo, stripStars, badPatternErr]

/-! ## The claims -/

/-- C2: for every asset sequence, `FilterAssets` with pattern `*` or with
the empty-string pattern succeeds and returns exactly the input sequence
unchanged, in its original order (the fast path returns the input without
evaluating any glob match). -/
theorem C2_filterAssets_fast_path (assets : List Asset) :
    FilterAssets assets "*" = .ok assets ∧ FilterAssets assets "" = .ok assets := by
  constructor <;> simp [FilterAssets]

/-- C3: whenever `FilterAssets` succeeds, the result is exactly the
input filtered by the per-asset matching predicate (so matching assets
are kept in their original relative order), it is a subsequence of the
input, and zero matches yield the empty sequence rather than an error. -/
theorem C3_filterAssets_subsequence (assets : List Asset) (pattern : String)
    (res : List Asset) (h : FilterAssets assets pattern = .ok res) :
    res = assets.filter (matchesPattern pattern) ∧
    List.Sublist res assets ∧
    ((∀ a ∈ assets, matchesPattern pattern a = false) → res = []) := by
  have hfilter : res = assets.filter (matchesPattern pattern) := by
    rw [FilterAssets] at h
    split at h
    · rename_i hfast
      simp only [Except.ok.injEq] at h
      rw [← h]
      have hall : ∀ a ∈ assets, matchesPattern pattern a = true := by
        intro a _
        simp [matchesPattern, hfast]
      exact (List.filter_eq_self.mpr hall).symm
    · rename_i hfast
      have := filterLoop_ok h
      rw [this]
      apply List.filter_congr
      intro a _
      simp [matchesPattern, hfast]
  refine ⟨hfilter, ?_, ?_⟩
  · rw [hfilter]
    exact List.filter_sublist assets
  · intro hnone
    rw [hfilter]
    exact List.filter_eq_nil.mpr (fun a ha => by simp [hnone a ha])

/-- Closed instance of C3 at the spec's end-to-end example: assets
`a.zip`, `b.tar.gz` under pattern `*.tar.gz` keep exactly `b.tar.gz`. -/
theorem C3_witness :
    FilterAssets [assetA, assetB] "*.tar.gz" = .ok [assetB] ∧
    [assetB] = [assetA, assetB].filter (matchesPattern "*.tar.gz") ∧
    List.Sublist [assetB] [assetA, assetB] := by
  have h : FilterAssets [assetA, assetB] "*.tar.gz" = .ok [assetB] := by
    simp [FilterAssets, filterLoop, assetA, assetB, pathMatch_targz_a, pathMatch_targz_b]
  have hc := C3_filterAssets_subsequence [assetA, assetB] "*.tar.gz" [assetB] h
  exact ⟨h, hc.1, hc.2.1⟩

/-- C10: `FilterAssets` is idempotent — filtering a successful result
again with the same pattern succeeds and leaves it unchanged. -/
theorem C10_filterAssets_idempotent (assets : List Asset) (pattern : String)
    (res : List Asset) (h : FilterAssets assets pattern = .ok res) :
    FilterAssets res pattern = .ok res := by
  rw [FilterAssets] at h ⊢
  split at h
  · rename_i hfast
    simp only [Except.ok.injEq] at h
    subst h
    simp [hfast]
  · rename_i hfast
    rw [if_neg hfast]
    have hres := filterLoop_ok h
    apply filterLoop_all_matched
    intro a ha
    rw [hres] at ha
    have := List.of_mem_filter ha
    revert this
    cases hpm : pathMatch pattern a.Name with
    | error e => simp
    | ok b => cases b <;> simp
  
/-- Closed instance of C10: re-filtering the `*.tar.gz` result changes
nothing. -/
theorem C10_witness : FilterAssets [assetB] "*.tar.gz" = .ok [assetB] :=
  C10_filterAssets_idempotent [assetA, assetB] "*.tar.gz" [assetB]
    (by simp [FilterAssets, filterLoop, assetA, assetB, pathMatch_targz_a, pathMatch_targz_b])

/-- C1 counterexample: the claim quantifies over every asset sequence,
but on the empty sequence `FilterAssets` never consults the matcher, so
the malformed pattern `[` (which the matcher rejects on every name)
yields success, and `ListAssets` likewise reports success. -/
theorem C1_counterexample :
    pathMatch "[" "x" = .error badPatternErr ∧
    FilterAssets [] "[" = .ok [] ∧
    (ListAssets [] "[").2 = .ok () := by
  refine ⟨pathMatch_lbracket "x", ?_, ?_⟩
  · simp [FilterAssets, filterLoop]
  · simp [ListAssets, FilterAssets, filterLoop]

/-- C1 (amended): for every NON-EMPTY asset sequence and every malformed
glob pattern (one the matcher rejects on every name), `FilterAssets`
fails with the `invalid pattern` error carrying the pattern text, and
`ListAssets` fails with the wrapped equivalent. -/
theorem C1_invalid_pattern (assets : List Asset) (pattern : String)
    (hne : assets ≠ [])
    (hbad : ∀ s : String, pathMatch pattern s = .error badPatternErr) :
    FilterAssets assets pattern =
      .error ("invalid pattern '" ++ pattern ++ "': " ++ badPatternErr) ∧
    strContains ("invalid pattern '" ++ pattern ++ "': " ++ badPatternErr) pattern ∧
    (ListAssets assets pattern).2 =
      .error ("failed to filter assets: " ++
        ("invalid pattern '" ++ pattern ++ "': " ++ badPatternErr)) := by
  have hstar : pattern ≠ "*" := by
    intro hp
    have := hbad ""
    rw [hp, pathMatch_star_empty] at this
    exact absurd this (by simp)
  have hempty : pattern ≠ "" := by
    intro hp
    have := hbad ""
    rw [hp, pathMatch_empty_empty] at this
    exact absurd this (by simp)
  have hfa : FilterAssets assets pattern =
      .error ("invalid pattern '" ++ pattern ++ "': " ++ badPatternErr) := by
    rw [FilterAssets, if_neg (by simp [hstar, hempty])]
    match assets, hne with
    | a :: rest, _ =>
      rw [filterLoop, hbad a.Name]
  refine ⟨hfa, ?_, ?_⟩
  · have : "invalid pattern '" ++ pattern ++ "': " ++ badPatternErr =
        "invalid pattern '" ++ pattern ++ ("': " ++ badPatternErr) := by
      simp [String.append_assoc]
    rw [this]
    exact strContains_mid _ _ _
  · rw [ListAssets.eq_def, hfa]

/-- Closed instance of C1 (amended) at pattern `[` on a one-asset list. -/
theorem C1_witness :
    FilterAssets [assetA] "[" =
      .error ("invalid pattern '" ++ "[" ++ "': " ++ badPatternErr) ∧
    strContains ("invalid pattern '" ++ "[" ++ "': " ++ badPatternErr) "[" ∧
    (ListAssets [assetA] "[").2 =
      .error ("failed to filter assets: " ++
        ("invalid pattern '" ++ "[" ++ "': " ++ badPatternErr)) :=
  C1_invalid_pattern [assetA] "[" (by simp) pathMatch_lbracket

theorem pathMatch_exe_a : pathMatch "*.exe" "a.zip" = .ok false := by
  simp [pathMatch, goMatch_nil, goMatch_cons, tryStar_nil, tryStar_cons, matchChunk_nil,
        matchChunk_cons, parseRanges_nil, parseRanges_cons, checkRemainder, getEsc,
        scanChunk, scanTo, stripStars, badPatternErr]

theorem pathMatch_exe_b : pathMatch "*.exe" "b.tar.gz" = .ok false := by
  simp [pathMatch, goMatch_nil, goMatch_cons, tryStar_nil, tryStar_cons, matchChunk_nil,
        matchChunk_cons, parseRanges_nil, parseRanges_cons, checkRemainder, getEsc,
        scanChunk, scanTo, stripStars, badPatternErr]

/-- C4: zero pattern matches is an error exactly in download mode and a
success exactly in list mode — the Downloader fails with an error whose
message contains the pattern text, while `ListAssets` emits the literal
`No assets found matching pattern '<pattern>'` line and succeeds. -/
theorem C4_zero_matches_asymmetry (cfg : Config) (env : Env)
    (assets : List Asset) (pattern : String) (release : Release) :
    (cfg.Repository ≠ "" → env.client = .ok () → cfg.Releases = false →
      env.releaseFetch = .ok release → cfg.List = false → cfg.Archive = "" →
      FilterAssets release.Assets cfg.Pattern = .ok [] →
      (DownloadFromRelease cfg env).2 =
        .error ("no assets found matching pattern '" ++ cfg.Pattern ++ "'") ∧
      strContains ("no assets found matching pattern '" ++ cfg.Pattern ++ "'")
        cfg.Pattern) ∧
    (FilterAssets assets pattern = .ok [] →
      ListAssets assets pattern =
        (["No assets found matching pattern '" ++ pattern ++ "'"], .ok ())) := by
  constructor
  · intro hrep hclient hreleases hrel hlist harch hfilter
    constructor
    · simp [DownloadFromRelease, hrep, hclient, hreleases, hrel, hlist, harch, hfilter]
    · have hsh : "no assets found matching pattern '" ++ cfg.Pattern ++ "'" =
          "no assets found matching pattern '" ++ cfg.Pattern ++ "'" := rfl
      exact strContains_mid "no assets found matching pattern '" cfg.Pattern "'"
  · intro hfilter
    simp [ListAssets, hfilter]

/-- Closed instance of C4: pattern `*.exe` matches none of `release0`'s
assets; downloading fails with the pattern in the message, listing
succeeds with the literal informational line. -/
theorem C4_witness :
    (DownloadFromRelease
        { Repository := "owner/repo", Tag := "", Pattern := "*.exe",
          Directory := ".", Archive := "", List := false, Releases := false,
          Help := false } envOk).2 =
      .error ("no assets found matching pattern '" ++ "*.exe" ++ "'") ∧
    ListAssets [assetA, assetB] "*.exe" =
      (["No assets found matching pattern '" ++ "*.exe" ++ "'"], .ok ()) := by
  have hfilter : FilterAssets [assetA, assetB] "*.exe" = .ok [] := by
    simp [FilterAssets, filterLoop, assetA, assetB, pathMatch_exe_a, pathMatch_exe_b]
  have h := C4_zero_matches_asymmetry
    { Repository := "owner/repo", Tag := "", Pattern := "*.exe",
      Directory := ".", Archive := "", List := false, Releases := false,
      Help := false } envOk [assetA, assetB] "*.exe" release0
  exact ⟨(h.1 (by simp) rfl rfl rfl rfl rfl (by simpa [release0] using hfilter)).1,
    h.2 hfilter⟩

/-- C5: `DownloadFromRelease` runs exactly one of five mutually
exclusive branches, in this fixed precedence: empty repository fails;
else the Releases flag delegates to release listing with no getRelease
call; else the release is resolved, after which the List flag delegates
to asset listing; else a non-empty Archive format drives the archive
download; else the filter-and-download path runs. -/
theorem C5_branches (cfg : Config) (env : Env) (release : Release)
    (hclient : env.client = .ok ()) (hrel : env.releaseFetch = .ok release) :
    (cfg.Repository = "" →
      DownloadFromRelease cfg env = ([], .error "repository is required")) ∧
    (cfg.Repository ≠ "" → cfg.Releases = true →
      DownloadFromRelease cfg env =
        ([.createClient, .listReleasesCall cfg.Repository],
          (ListReleases env.releasesFetch cfg.Repository).2) ∧
      (∀ repo tag, Step.getReleaseCall repo tag ∉ (DownloadFromRelease cfg env).1)) ∧
    (cfg.Repository ≠ "" → cfg.Releases = false → cfg.List = true →
      DownloadFromRelease cfg env =
        ([.createClient, .getReleaseCall cfg.Repository cfg.Tag,
            .listAssetsCall cfg.Pattern],
          (ListAssets release.Assets cfg.Pattern).2)) ∧
    (cfg.Repository ≠ "" → cfg.Releases = false → cfg.List = false →
      cfg.Archive ≠ "" →
      DownloadFromRelease cfg env =
        (match downloadArchivePlan cfg.Repository cfg.Tag cfg.Archive with
         | .error e =>
             ([.createClient, .getReleaseCall cfg.Repository cfg.Tag], .error e)
         | .ok (endpoint, filename) =>
             ([.createClient, .getReleaseCall cfg.Repository cfg.Tag,
                 .archiveRequest endpoint filename],
               env.archiveStream))) ∧
    (cfg.Repository ≠ "" → cfg.Releases = false → cfg.List = false →
      cfg.Archive = "" →
      DownloadFromRelease cfg env =
        (match FilterAssets release.Assets cfg.Pattern with
         | .error e =>
             ([.createClient, .getReleaseCall cfg.Repository cfg.Tag],
               .error ("failed to filter assets: " ++ e))
         | .ok matching =>
             if matching.length = 0 then
               ([.createClient, .getReleaseCall cfg.Repository cfg.Tag],
                 .error ("no assets found matching pattern '" ++ cfg.Pattern ++ "'"))
             else
               ([.createClient, .getReleaseCall cfg.Repository cfg.Tag,
                   .assetDownloadLoop (matching.map Asset.Name)],
                 env.assetStream))) := by
  refine ⟨?_, ?_, ?_, ?_, ?_⟩
  · intro hrep
    simp [DownloadFromRelease, hrep]
  · intro hrep hreleases
    have heq : DownloadFromRelease cfg env =
        ([.createClient, .listReleasesCall cfg.Repository],
          (ListReleases env.releasesFetch cfg.Repository).2) := by
      simp [DownloadFromRelease, hrep, hclient, hreleases]
    refine ⟨heq, ?_⟩
    intro repo tag
    rw [heq]
    simp
  · intro hrep hreleases hlist
    simp [DownloadFromRelease, hrep, hclient, hreleases, hrel, hlist]
  · intro hrep hreleases hlist harch
    simp [DownloadFromRelease, hrep, hclient, hreleases, hrel, hlist, harch]
  · intro hrep hreleases hlist harch
    simp [DownloadFromRelease, hrep, hclient, hreleases, hrel, hlist, harch]

/-- Closed instance of C5 at the Releases branch: the listing call is
issued, and no getRelease call appears in the trace. -/
theorem C5_witness :
    DownloadFromRelease
        { Repository := "owner/repo", Tag := "", Pattern := "*",
          Directory := ".", Archive := "", List := false, Releases := true,
          Help := false } envOk =
      ([.createClient, .listReleasesCall "owner/repo"],
        (ListReleases (.ok [release0]) "owner/repo").2) ∧
    (∀ repo tag, Step.getReleaseCall repo tag ∉
      (DownloadFromRelease
        { Repository := "owner/repo", Tag := "", Pattern := "*",
          Directory := ".", Archive := "", List := false, Releases := true,
          Help := false } envOk).1) := by
  have h := (C5_branches
    { Repository := "owner/repo", Tag := "", Pattern := "*",
      Directory := ".", Archive := "", List := false, Releases := true,
      Help := false } envOk release0 rfl rfl).2.1 (by simp) rfl
  exact ⟨h.1, h.2⟩

/-- C6: an empty repository string fails immediately with a message
containing `repository is required`, with no client created and no
network call issued (the call trace is empty). -/
theorem C6_empty_repository (cfg : Config) (env : Env)
    (h : cfg.Repository = "") :
    (DownloadFromRelease cfg env).1 = [] ∧
    ∃ msg, (DownloadFromRelease cfg env).2 = .error msg ∧
      strContains msg "repository is required" := by
  refine ⟨by simp [DownloadFromRelease, h], "repository is required",
    by simp [DownloadFromRelease, h], ?_⟩
  exact List.infix_rfl

/-- Closed instance of C6. -/
theorem C6_witness :
    (DownloadFromRelease
        { Repository := "", Tag := "", Pattern := "*", Directory := ".",
          Archive := "", List := false, Releases := false, Help := false }
        envOk).1 = [] ∧
    ∃ msg, (DownloadFromRelease
        { Repository := "", Tag := "", Pattern := "*", Directory := ".",
          Archive := "", List := false, Releases := false, Help := false }
        envOk).2 = .error msg ∧
      strContains msg "repository is required" :=
  C6_empty_repository _ envOk rfl

/-- C7: any archive format other than `zip`/`tar.gz` fails with a
message containing `archive format must be`; for the two valid formats
the tag reference falls back to `HEAD` when the tag is empty and the
target file name is `{repo with / replaced by -}-{tagRef}.{ext}`. -/
theorem C7_archive_plan (repo tag archiveFormat : String) :
    (archiveFormat ≠ "zip" → archiveFormat ≠ "tar.gz" →
      ∃ msg, downloadArchivePlan repo tag archiveFormat = .error msg ∧
        strContains msg "archive format must be") ∧
    (archiveFormat = "zip" →
      downloadArchivePlan repo tag archiveFormat =
        .ok ("repos/" ++ repo ++ "/zipball/" ++ (if tag = "" then "HEAD" else tag),
          repoDashes repo ++ "-" ++ (if tag = "" then "HEAD" else tag) ++ ".zip")) ∧
    (archiveFormat = "tar.gz" →
      downloadArchivePlan repo tag archiveFormat =
        .ok ("repos/" ++ repo ++ "/tarball/" ++ (if tag = "" then "HEAD" else tag),
          repoDashes repo ++ "-" ++ (if tag = "" then "HEAD" else tag) ++ ".tar.gz")) := by
  refine ⟨?_, ?_, ?_⟩
  · intro h1 h2
    refine ⟨"archive format must be 'zip' or 'tar.gz'", ?_, by decide⟩
    simp [downloadArchivePlan, h1, h2]
  · intro h
    simp [downloadArchivePlan, h]
  · intro h
    simp [downloadArchivePlan, h]

/-- Closed instance of C7: format `exe` is rejected; the derived names
for the two valid formats. -/
theorem C7_witness :
    (∃ msg, downloadArchivePlan "owner/repo" "" "exe" = .error msg ∧
      strContains msg "archive format must be") ∧
    downloadArchivePlan "owner/repo" "" "zip" =
      .ok ("repos/owner/repo/zipball/HEAD", "owner-repo-HEAD.zip") ∧
    downloadArchivePlan "owner/repo" "v1.0.0" "tar.gz" =
      .ok ("repos/owner/repo/tarball/v1.0.0", "owner-repo-v1.0.0.tar.gz") := by
  refine ⟨(C7_archive_plan "owner/repo" "" "exe").1 (by decide) (by decide), ?_, ?_⟩
  · rw [(C7_archive_plan "owner/repo" "" "zip").2.1 rfl]
    decide
  · rw [(C7_archive_plan "owner/repo" "v1.0.0" "tar.gz").2.2 rfl]
    decide

/-- A release whose (empty) tag differs from its display name. -/
def releaseNoTag : Release :=
  { ID := 3, TagName := "", Name := "r1", Body := "", Draft := false,
    Prerelease := false, CreatedAt := "", PublishedAt := "", Assets := [] }

/-- A release whose tag equals its display name. -/
def releaseTagEqName : Release :=
  { ID := 4, TagName := "v2", Name := "v2", Body := "", Draft := false,
    Prerelease := false, CreatedAt := "", PublishedAt := "", Assets := [] }

/-- C8 counterexample: `releaseNoTag` has a tag (the empty string) that
differs from its display name, yet its rendered line shows no
parenthesised tag at all — the code also requires the tag to be
nonempty. -/
theorem C8_counterexample :
    releaseNoTag.TagName ≠ releaseNoTag.Name ∧
    releaseTagSuffix releaseNoTag = "" ∧
    ¬ strContains (releaseLine 0 releaseNoTag) "(" := by
  refine ⟨by decide, by decide, by decide⟩

/-- C8 (amended): a release whose tag equals its display name never gets
the parenthesised tag (the line is just number, name and status), and a
release whose tag is NONEMPTY and differs from its display name does get
` (tag)` in its line. -/
theorem C8_tag_suffix (i : Nat) (r : Release) :
    (r.TagName = r.Name →
      releaseTagSuffix r = "" ∧
      releaseLine i r =
        toString (i + 1) ++ ". " ++ r.Name ++
          (match releaseStatusText r with
           | some a => " " ++ a
           | none => "")) ∧
    (r.TagName ≠ "" → r.TagName ≠ r.Name →
      releaseTagSuffix r = " (" ++ r.TagName ++ ")" ∧
      strContains (releaseLine i r) ("(" ++ r.TagName ++ ")")) := by
  constructor
  · intro heq
    have hsuf : releaseTagSuffix r = "" := by
      rw [releaseTagSuffix, if_neg (by simp [heq])]
    refine ⟨hsuf, ?_⟩
    rw [releaseLine, hsuf]
    simp
  · intro hne hneq
    have hsuf : releaseTagSuffix r = " (" ++ r.TagName ++ ")" := by
      rw [releaseTagSuffix, if_pos ⟨hne, hneq⟩]
    refine ⟨hsuf, ?_⟩
    refine ⟨(toString (i + 1) ++ ". " ++ r.Name ++ " ").data,
      (match releaseStatusText r with
       | some a => " " ++ a
       | none => "").data, ?_⟩
    rw [releaseLine, hsuf]
    simp [String.data_append]

/-- Closed instance of C8 (amended) at a tag-equals-name release and at
`release0` (tag `v1.0.0`, name `Release v1.0.0`). -/
theorem C8_witness :
    releaseTagSuffix releaseTagEqName = "" ∧
    releaseTagSuffix release0 = " (" ++ release0.TagName ++ ")" ∧
    strContains (releaseLine 0 release0) ("(" ++ release0.TagName ++ ")") := by
  refine ⟨((C8_tag_suffix 0 releaseTagEqName).1 rfl).1, ?_, ?_⟩
  · exact ((C8_tag_suffix 0 release0).2 (by decide) (by decide)).1
  · exact ((C8_tag_suffix 0 release0).2 (by decide) (by decide)).2

/-- C9: the bracketed status of a rendered release line is exactly
`[draft]`, `[prerelease]`, `[draft, prerelease]` (draft always first),
or absent, according to the two flags. -/
theorem C9_status_text (r : Release) :
    releaseStatusText r =
      (match r.Draft, r.Prerelease with
       | true, true => some "[draft, prerelease]"
       | true, false => some "[draft]"
       | false, true => some "[prerelease]"
       | false, false => none) := by
  rcases r with ⟨_, _, _, _, draft, pre, _, _, _⟩
  cases draft <;> cases pre <;> simp [releaseStatusText, releaseStatusList] <;> decide

/-! ## Sanity checks of the embedded matcher against Go `path.Match` -/

example : pathMatch "*" "a.zip" = .ok true := by
  simp [pathMatch, goMatch_nil, goMatch_cons, tryStar_nil, tryStar_cons, matchChunk_nil,
        matchChunk_cons, parseRanges_nil, parseRanges_cons, checkRemainder, getEsc,
        scanChunk, scanTo, stripStars, badPatternErr]

example : pathMatch "?" "a" = .ok true := by
  simp [pathMatch, goMatch_nil, goMatch_cons, tryStar_nil, tryStar_cons, matchChunk_nil,
        matchChunk_cons, parseRanges_nil, parseRanges_cons, checkRemainder, getEsc,
        scanChunk, scanTo, stripStars, badPatternErr]

example : pathMatch "[a-c]" "b" = .ok true := by
  simp [pathMatch, goMatch_nil, goMatch_cons, tryStar_nil, tryStar_cons, matchChunk_nil,
        matchChunk_cons, parseRanges_nil, parseRanges_cons, checkRemainder, getEsc,
        scanChunk, scanTo, stripStars, badPatternErr]

example : pathMatch "[a-c]" "d" = .ok false := by
  simp [pathMatch, goMatch_nil, goMatch_cons, tryStar_nil, tryStar_cons, matchChunk_nil,
        matchChunk_cons, parseRanges_nil, parseRanges_cons, checkRemainder, getEsc,
        scanChunk, scanTo, stripStars, badPatternErr]

example : pathMatch "[^a]" "b" = .ok true := by
  simp [pathMatch, goMatch_nil, goMatch_cons, tryStar_nil, tryStar_cons, matchChunk_nil,
        matchChunk_cons, parseRanges_nil, parseRanges_cons, checkRemainder, getEsc,
        scanChunk, scanTo, stripStars, badPatternErr]

example : pathMatch "a[" "a" = .error badPatternErr := by
  simp [pathMatch, goMatch_nil, goMatch_cons, tryStar_nil, tryStar_cons, matchChunk_nil,
        matchChunk_cons, parseRanges_nil, parseRanges_cons, checkRemainder, getEsc,
        scanChunk, scanTo, stripStars, badPatternErr]

example : pathMatch "a*b" "aXb" = .ok true := by
  simp [pathMatch, goMatch_nil, goMatch_cons, tryStar_nil, tryStar_cons, matchChunk_nil,
        matchChunk_cons, parseRanges_nil, parseRanges_cons, checkRemainder, getEsc,
        scanChunk, scanTo, stripStars, badPatternErr]

example : pathMatch "app-*-linux-*" "app-1.2-linux-x64" = .ok true := by
  simp [pathMatch, goMatch_nil, goMatch_cons, tryStar_nil, tryStar_cons, matchChunk_nil,
        matchChunk_cons, parseRanges_nil, parseRanges_cons, checkRemainder, getEsc,
        scanChunk, scanTo, stripStars, badPatternErr]

end GhDownload
